/-
Verification of the autocxx analysis core: the directive configuration
(`parser/src/config.rs`) and the POD-analysis pipeline
(`engine/src/conversion/analysis/pod/mod.rs`).

Rust `HashSet` values are modelled as `Finset`, `Vec` as `List`,
fallible functions as `Except`, and in-place mutation as explicit
state passing (a function that mutates `self` and returns `Result`
becomes a function returning the new state together with the error
option, so that "left unchanged on error" is expressible).
-/
import Mathlib

namespace Autocxx

/-! ## Configuration (from parser/src/config.rs) -/

/-- Source `UnsafePolicy` from config.rs. -/
inductive UnsafePolicy where
  | AllFunctionsSafe
  | AllFunctionsUnsafe
deriving DecidableEq, Repr

/-- Source `Allowlist` from config.rs: unspecified (holding an uncommitted list),
all, or a specific list of names. -/
inductive Allowlist where
  | Unspecified : List String → Allowlist
  | All : Allowlist
  | Specific : List String → Allowlist
deriving DecidableEq, Repr

/-- Source `Allowlist::push` from config.rs. The Rust method mutates `self` and
returns `ParseResult<()>`; we return the new allowlist paired with the
error message, if any.  On `Unspecified` the uncommitted list is drained,
the new item chained, and the state becomes `Specific`; on `All` an error
is returned and the allowlist is untouched; on `Specific` the item is
appended. -/
def Allowlist.push (a : Allowlist) (item : String) : Allowlist × Option String :=
  match a with
  | .Unspecified uncommitted_list =>
      (.Specific (uncommitted_list ++ [item]), none)
  | .All =>
      (.All, some "use either generate/generate_pod or generate_all, not both.")
  | .Specific l => (.Specific (l ++ [item]), none)

/-- Source `Allowlist::set_all` from config.rs: an error if the allowlist is
already `Specific` (left unchanged), otherwise becomes `All`. -/
def Allowlist.set_all (a : Allowlist) : Allowlist × Option String :=
  match a with
  | .Specific l =>
      (.Specific l, some "use either generate/generate_pod or generate_all, not both.")
  | _ => (.All, none)

/-- Source `Allowlist::default` from config.rs. -/
def Allowlist.default : Allowlist := .Unspecified []

/-- Source `Subclass` from config.rs (the subclass ident modelled as a string). -/
structure Subclass where
  superclass : String
  subclass : String
deriving DecidableEq, Repr

/-- Source `IncludeCppConfig` from config.rs.  `mod_name` is an optional ident;
`rust_types` keeps the paths' final idents; `extern_rust_funs` keeps the
functions' signature idents (all that the queries below consume). -/
structure IncludeCppConfig where
  inclusions : List String
  unsafe_policy : UnsafePolicy
  parse_only : Bool
  exclude_impls : Bool
  pod_requests : List String
  allowlist : Allowlist
  blocklist : List String
  exclude_utilities_flag : Bool
  mod_name : Option String
  rust_types : List String
  subclasses : List Subclass
  extern_rust_funs : List String
deriving DecidableEq, Repr

/-- Source `IncludeCppConfig::get_pod_requests`. -/
def IncludeCppConfig.get_pod_requests (c : IncludeCppConfig) : List String :=
  c.pod_requests

/-- Source `IncludeCppConfig::get_makestring_name`. -/
def IncludeCppConfig.get_makestring_name (c : IncludeCppConfig) : String :=
  "autocxx_make_string_" ++ (c.mod_name.getD "default")

/-- Source `IncludeCppConfig::active_utilities`. -/
def IncludeCppConfig.active_utilities (c : IncludeCppConfig) : List String :=
  if c.exclude_utilities_flag then [] else [c.get_makestring_name]

/-- The three names contributed per subclass in
`IncludeCppConfig::bindgen_allowlist`. -/
def subclassNames (sc : Subclass) : List String :=
  [sc.subclass ++ "Cpp", sc.subclass, sc.superclass]

/-- Source `IncludeCppConfig::bindgen_allowlist`.  The Rust function returns
`Option<impl Iterator>` and hits `unreachable!()` on `Unspecified`; we
model the panic as the outer `none`, so the result is
`some none` for `All` (no restriction) and `some (some items)` for
`Specific`. -/
def IncludeCppConfig.bindgen_allowlist (c : IncludeCppConfig) :
    Option (Option (List String)) :=
  match c.allowlist with
  | .All => some none
  | .Specific items =>
      some (some (items ++ c.pod_requests ++ c.active_utilities ++
        (c.subclasses.map subclassNames).flatten))
  | .Unspecified _ => none

/-- Source `IncludeCppConfig::is_subclass_holder`. -/
def IncludeCppConfig.is_subclass_holder (c : IncludeCppConfig) (id : String) : Bool :=
  c.subclasses.any (fun sc => sc.subclass ++ "Holder" == id)

/-- Source `IncludeCppConfig::is_subclass_cpp`. -/
def IncludeCppConfig.is_subclass_cpp (c : IncludeCppConfig) (id : String) : Bool :=
  c.subclasses.any (fun sc => sc.subclass ++ "Cpp" == id)

/-- Source `IncludeCppConfig::is_rust_fun`. -/
def IncludeCppConfig.is_rust_fun (c : IncludeCppConfig) (possible_fun : String) : Bool :=
  c.extern_rust_funs.any (fun id => id == possible_fun)

/-- Source `IncludeCppConfig::is_on_allowlist`.  Propagates the `Unspecified`
panic of `bindgen_allowlist` as `none`; otherwise `some` of the Rust
boolean. -/
def IncludeCppConfig.is_on_allowlist (c : IncludeCppConfig) (cpp_name : String) :
    Option Bool :=
  match c.bindgen_allowlist with
  | none => none
  | some none => some true
  | some (some items) =>
      some (items.contains cpp_name
        || c.active_utilities.any (fun item => item == cpp_name)
        || c.is_subclass_holder cpp_name
        || c.is_subclass_cpp cpp_name
        || c.is_rust_fun cpp_name)

/-- Source `IncludeCppConfig::is_on_blocklist`. -/
def IncludeCppConfig.is_on_blocklist (c : IncludeCppConfig) (cpp_name : String) : Bool :=
  c.blocklist.contains cpp_name

/-- Source `IncludeCppConfig::confirm_complete`: if the allowlist is still
`Unspecified`, either default it to an empty `Specific` list (when
`auto_allowlist`) or fail; otherwise leave the configuration alone. -/
def IncludeCppConfig.confirm_complete (c : IncludeCppConfig) (auto_allowlist : Bool) :
    Except String IncludeCppConfig :=
  match c.allowlist with
  | .Unspecified _ =>
      if auto_allowlist then
        .ok ⟨c.inclusions, c.unsafe_policy, c.parse_only, c.exclude_impls,
             c.pod_requests, .Specific [], c.blocklist, c.exclude_utilities_flag,
             c.mod_name, c.rust_types, c.subclasses, c.extern_rust_funs⟩
      else
        .error "expected either generate or generate_all"
  | _ => .ok c

/-! ## Names and declarations (engine data model)

The engine sources under analysis (`pod/mod.rs`) build on types from
`types.rs`, `api.rs` and `syn` that are not part of the analysed core;
those are modelled from the spec below. -/

/-- Modelled from the spec: `QualifiedName` — an ordered sequence of scope
segments plus a final identifier, structural equality (`types.rs` is not
part of the analysed sources).  The `nested` flag records whether the name
denotes a type nested inside another declaration, backing
`is_nested_struct_or_class`. -/
structure QualifiedName where
  ns : List String
  id : String
  nested : Bool
deriving DecidableEq, Repr

/-- Source `QualifiedName::get_namespace`. -/
def QualifiedName.get_namespace (n : QualifiedName) : List String := n.ns

/-- Source `QualifiedName::get_final_ident` (as a plain string). -/
def QualifiedName.get_final_ident (n : QualifiedName) : String := n.id

/-- Modelled from the spec: `QualifiedName::is_nested_struct_or_class` —
whether the name denotes a type nested inside another declaration. -/
def QualifiedName.is_nested_struct_or_class (n : QualifiedName) : Bool := n.nested

/-- Source `ApiName` — a declaration's identity. -/
structure ApiName where
  name : QualifiedName
deriving DecidableEq, Repr

/-- Modelled from the spec: one occurrence of a foreign type reference, as
needed by the type converter — a plain named type, a generic/template type
instantiated at a named argument, or a construct the converter does not
support. -/
inductive Ty where
  | named : QualifiedName → Ty
  | inst : QualifiedName → QualifiedName → Ty
  | unsupported : Ty
deriving DecidableEq, Repr

/-- The head path name of a type, when the type is a path
(`QualifiedName::from_type_path` applied to a `Type::Path`). -/
def tyPathName : Ty → Option QualifiedName
  | .named n => some n
  | .inst g _ => some g
  | .unsupported => none

/-- A struct field: optional identifier plus type (from `syn::Field`). -/
structure Field where
  ident : Option String
  ty : Ty
deriving DecidableEq, Repr

/-- A struct declaration (from `syn::ItemStruct`): its attributes, whether
it carries user-defined lifecycle functions (destructor / copy constructor
/ move constructor — modelled from the spec as a flag, since the analysed
sources never inspect the concrete syntax for this), and its fields. -/
structure ItemStruct where
  attrs : List String
  has_lifecycle : Bool
  fields : List Field
deriving DecidableEq, Repr

/-- An enum declaration (from `syn::ItemEnum`): only its attributes are
touched at this phase. -/
structure ItemEnum where
  attrs : List String
deriving DecidableEq, Repr

/-- Source `TypeKind` for the POD phase. -/
inductive TypeKind where
  | Pod
  | NonPodNested
  | NonPod
deriving DecidableEq, Repr

/-- Source `ConvertError` (the cases exercised by this core). -/
inductive ConvertError where
  | unsupportedType
  | unusedTemplateParam
  | unsatisfiablePodRequest (name : QualifiedName)
deriving DecidableEq, Repr

/-- Source `ErrorContext` — the declaration identity attached to an error. -/
inductive ErrorContext where
  | item : String → ErrorContext
deriving DecidableEq, Repr

/-- Source `ConvertErrorWithContext`. -/
structure ConvertErrorWithContext where
  err : ConvertError
  ctx : Option ErrorContext
deriving DecidableEq, Repr

/-- Source `PodAnalysis` from pod/mod.rs: classification kind, base-class slots,
and the field dependency edge set. -/
structure PodAnalysis where
  kind : TypeKind
  bases : Finset QualifiedName
  field_deps : Finset QualifiedName
deriving DecidableEq

/-- Source `Api<Phase>`, with the phase's struct analysis as the parameter `S`
(functions and typedefs carry no data this phase touches; `ignored` is the
error-reporter's `Api::IgnoredItem`, carrying the declaration name and the
contextualised error). -/
inductive Api (S : Type) where
  | function : ApiName → Api S
  | struct : ApiName → ItemStruct → S → Api S
  | enum : ApiName → ItemEnum → Api S
  | typedef : ApiName → Api S
  | ignored : ApiName → ConvertErrorWithContext → Api S
deriving DecidableEq

/-- The name of any `Api`. -/
def Api.apiName {S : Type} : Api S → ApiName
  | .function n => n
  | .struct n _ _ => n
  | .enum n _ => n
  | .typedef n => n
  | .ignored n _ => n

/-! ## Type converter (modelled from the spec)

`type_converter.rs` is not part of the analysed sources.  Modelled from the
spec: converting a type returns the set of qualified names encountered plus
zero or more brand-new declarations (monomorphized instantiations of
generic types), with a cache of already-seen instantiations so a given
instantiation is emitted at most once; an instantiation's fields do not
name further never-before-seen instantiations. -/

/-- The converter's result for one type occurrence. -/
structure Annotated where
  types_encountered : Finset QualifiedName
  extra_apis : List (Api Unit)

/-- Source `TypeConverter` state: the cache of already-emitted instantiations. -/
structure TypeConverter where
  cache : List QualifiedName
deriving DecidableEq, Repr

/-- The qualified name of the concretized instantiation of generic `g` at
argument `a`. -/
def instName (g a : QualifiedName) : QualifiedName :=
  ⟨g.ns, g.id ++ "_of_" ++ a.id, false⟩

/-- The synthesized declaration for the instantiation of `g` at `a`: a
struct holding the argument type by value, with no further generic
fields. -/
def concreteInstApi (g a : QualifiedName) : Api Unit :=
  .struct ⟨instName g a⟩ ⟨[], false, [⟨none, .named a⟩]⟩ ()

/-- Modelled from the spec: `TypeConverter::convert_type`.  A named type is
encountered and nothing else happens; a generic instantiation additionally
synthesizes the concretized declaration unless the cache already holds it;
an unsupported construct is a conversion error scoped to this one type
reference. -/
def convert_type (tc : TypeConverter) (t : Ty) (_ns : List String) :
    Except ConvertError (Annotated × TypeConverter) :=
  match t with
  | .named n => .ok (⟨{n}, []⟩, tc)
  | .inst g a =>
      let cn := instName g a
      if cn ∈ tc.cache then .ok (⟨{g, a, cn}, []⟩, tc)
      else .ok (⟨{g, a, cn}, [concreteInstApi g a]⟩, ⟨cn :: tc.cache⟩)
  | .unsupported => .error .unsupportedType

/-! ## By-value (POD) checker (modelled from the spec)

`byvalue_checker.rs` is not part of the analysed sources.  Modelled from
the spec: a closed-world analysis over all struct declarations in the
batch; a type is eligible only if it carries no user-defined lifecycle
functions and every field's type is eligible, ineligibility propagating
transitively as a fixpoint; construction fails if an explicit by-value
request names an ineligible type. -/

/-- All qualified names appearing in one type reference. -/
def tyNames : Ty → List QualifiedName
  | .named n => [n]
  | .inst g a => [g, a]
  | .unsupported => []

/-- The struct declarations of a batch, keyed by qualified name. -/
def structsOf (apis : List (Api Unit)) : List (QualifiedName × ItemStruct) :=
  apis.filterMap fun a =>
    match a with
    | .struct n item _ => some (n.name, item)
    | _ => none

/-- One step of the ineligibility fixpoint: the batch structs that carry
lifecycle functions or hold a field naming an already-ineligible type. -/
def ineligibleStep (batch : List (QualifiedName × ItemStruct))
    (bad : List QualifiedName) : List QualifiedName :=
  batch.filterMap fun p =>
    if p.2.has_lifecycle
        || p.2.fields.any (fun f => (tyNames f.ty).any (fun n => decide (n ∈ bad)))
    then some p.1 else none

/-- The ineligible set: the fixpoint reached by iterating one step past the
batch size. -/
def ineligibleSet (batch : List (QualifiedName × ItemStruct)) : List QualifiedName :=
  (ineligibleStep batch)^[batch.length + 1] []

/-- The by-value checker: the set of names eligible for flat
representation. -/
structure ByValueChecker where
  pod : List QualifiedName
deriving DecidableEq, Repr

/-- Source `ByValueChecker::is_pod` — a pure query, defined for any name (names
outside the analysed batch are not eligible). -/
def ByValueChecker.is_pod (c : ByValueChecker) (n : QualifiedName) : Bool :=
  decide (n ∈ c.pod)

/-- The qualified name a textual pod request denotes. -/
def QualifiedName.from_cpp_name (s : String) : QualifiedName := ⟨[], s, false⟩

/-- The eligible names of a batch: batch structs not in the ineligible
set. -/
def pod_eligible (apis : List (Api Unit)) : List QualifiedName :=
  let batch := structsOf apis
  (batch.map Prod.fst).filter fun n => decide (n ∉ ineligibleSet batch)

/-- Modelled from the spec: `ByValueChecker::new_from_apis` — the
closed-world construction; fails with a configuration error if any
explicit by-value request names a type the analysis determines
ineligible. -/
def ByValueChecker.new_from_apis (apis : List (Api Unit))
    (config : IncludeCppConfig) : Except ConvertError ByValueChecker :=
  let pod := pod_eligible apis
  match config.get_pod_requests.find?
      (fun r => !(decide (QualifiedName.from_cpp_name r ∈ pod))) with
  | some r => .error (.unsatisfiablePodRequest (QualifiedName.from_cpp_name r))
  | none => .ok ⟨pod⟩

/-! ## The classifiers and the pipeline (from pod/mod.rs) -/

/-- Modelled from the spec: `remove_bindgen_attrs` (in `analysis/mod.rs`,
not part of the analysed sources) — strips the parsing stage's
bookkeeping marker attributes from a declaration; fails, with the
declaration's identifier as context, on the marker recording an unused
template parameter. -/
def remove_bindgen_attrs (attrs : List String) (id : String) :
    Except ConvertErrorWithContext (List String) :=
  if "bindgen_unused_template_param" ∈ attrs then
    .error ⟨.unusedTemplateParam, some (.item id)⟩
  else
    .ok (attrs.filter (fun a => !(a.startsWith "bindgen_")))

/-- Source `get_bases` from pod/mod.rs: the path-typed fields whose identifier
starts with the reserved `_base` marker, collected as a set of qualified
names. -/
def get_bases (item : ItemStruct) : Finset QualifiedName :=
  (item.fields.filterMap fun f =>
    match f.ty, f.ident with
    | .named n, some id => if id.startsWith "_base" then some n else none
    | .inst g _, some id => if id.startsWith "_base" then some g else none
    | _, _ => none).toFinset

/-- The loop of `get_struct_field_types`: convert each field's type in
order, accumulating encountered names into `deps` and synthesized
declarations into `extras`; on a conversion error, stop with the error
(the extras and converter state accumulated so far persist, mirroring the
caller-owned `&mut` arguments). -/
def convert_fields (tc : TypeConverter) (ns : List String) (fields : List Field)
    (deps : Finset QualifiedName) (extras : List (Api Unit)) :
    Except ConvertError (Finset QualifiedName) × List (Api Unit) × TypeConverter :=
  match fields with
  | [] => (.ok deps, extras, tc)
  | f :: rest =>
      match convert_type tc f.ty ns with
      | .error e => (.error e, extras, tc)
      | .ok (annotated, tc2) =>
          convert_fields tc2 ns rest (deps ∪ annotated.types_encountered)
            (extras ++ annotated.extra_apis)

/-- Source `get_struct_field_types` from pod/mod.rs. -/
def get_struct_field_types (tc : TypeConverter) (ns : List String) (s : ItemStruct)
    (deps : Finset QualifiedName) (extras : List (Api Unit)) :
    Except ConvertError (Finset QualifiedName) × List (Api Unit) × TypeConverter :=
  convert_fields tc ns s.fields deps extras

/-- Source `analyze_struct` from pod/mod.rs: strip marker attributes, compute
`bases`, then — only if the checker reports the name eligible — convert
every field type, accumulating `field_deps` and forwarding synthesized
declarations; classify `Pod`, or `NonPodNested` / `NonPod` when
ineligible.  The caller's extra-API list and converter are threaded
explicitly (they were `&mut` arguments in the source). -/
def analyze_struct (byvalue_checker : ByValueChecker) (tc : TypeConverter)
    (extra_apis : List (Api Unit)) (name : ApiName) (item : ItemStruct) :
    Except ConvertErrorWithContext (List (Api PodAnalysis))
      × List (Api Unit) × TypeConverter :=
  let id := name.name.get_final_ident
  match remove_bindgen_attrs item.attrs id with
  | .error e => (.error e, extra_apis, tc)
  | .ok attrs2 =>
      let item2 : ItemStruct := ⟨attrs2, item.has_lifecycle, item.fields⟩
      let bases := get_bases item2
      if byvalue_checker.is_pod name.name then
        match get_struct_field_types tc name.name.get_namespace item2 ∅ extra_apis with
        | (.error e, extras2, tc2) =>
            (.error ⟨e, some (.item id)⟩, extras2, tc2)
        | (.ok field_deps, extras2, tc2) =>
            (.ok [.struct name item2 ⟨.Pod, bases, field_deps⟩], extras2, tc2)
      else if name.name.is_nested_struct_or_class then
        (.ok [.struct name item2 ⟨.NonPodNested, bases, ∅⟩], extra_apis, tc)
      else
        (.ok [.struct name item2 ⟨.NonPod, bases, ∅⟩], extra_apis, tc)

/-- Source `analyze_enum` from pod/mod.rs: strip marker attributes and pass the
declaration through unchanged. -/
def analyze_enum (name : ApiName) (item : ItemEnum) :
    Except ConvertErrorWithContext (List (Api PodAnalysis)) :=
  match remove_bindgen_attrs item.attrs name.name.get_final_ident with
  | .error e => .error e
  | .ok attrs2 => .ok [.enum name ⟨attrs2⟩]

/-- Modelled from the spec: `convert_apis` (in `error_reporter.rs`, not
part of the analysed sources) — per-item fault isolation over a batch:
each declaration is dispatched by kind (functions and typedefs pass
through unchanged, structs to `analyze_struct`, enums to `analyze_enum`,
already-ignored items pass through); a failing item is recorded as an
`ignored` entry carrying its name and error, and the batch continues.
The converter state and the extra-API side list are threaded through the
struct classifier. -/
def convert_apis (bvc : ByValueChecker) (tc : TypeConverter)
    (extras : List (Api Unit)) (apis : List (Api Unit))
    (results : List (Api PodAnalysis)) :
    List (Api PodAnalysis) × List (Api Unit) × TypeConverter :=
  match apis with
  | [] => (results, extras, tc)
  | a :: rest =>
      match a with
      | .function n => convert_apis bvc tc extras rest (results ++ [.function n])
      | .typedef n => convert_apis bvc tc extras rest (results ++ [.typedef n])
      | .ignored n e => convert_apis bvc tc extras rest (results ++ [.ignored n e])
      | .enum n item =>
          match analyze_enum n item with
          | .ok outs => convert_apis bvc tc extras rest (results ++ outs)
          | .error e => convert_apis bvc tc extras rest (results ++ [.ignored n e])
      | .struct n item _ =>
          match analyze_struct bvc tc extras n item with
          | (.ok outs, extras2, tc2) =>
              convert_apis bvc tc2 extras2 rest (results ++ outs)
          | (.error e, extras2, tc2) =>
              convert_apis bvc tc2 extras2 rest (results ++ [.ignored n e])

/-- Source `add_analysis` (in `type_converter.rs`): trivially lift a newly
discovered declaration into the next pass's phase — a no-op annotation; in
this embedding both phases share the representation `Api Unit`. -/
def add_analysis (a : Api Unit) : Api Unit := a

/-- The outcome of `analyze_pod_apis`: a classified declaration set, a
configuration error, or the `assert!` on the closing invariant firing. -/
inductive PodResult where
  | ok : List (Api PodAnalysis) → PodResult
  | err : ConvertError → PodResult
  | assertionFailed : PodResult

/-- Source `analyze_pod_apis` from pod/mod.rs: build the checker once (a failure
aborts the whole run), classify every declaration collecting newly
discovered ones, lift and classify exactly that new batch once more, and
assert that the second pass discovers nothing further. -/
def analyze_pod_apis (apis : List (Api Unit)) (config : IncludeCppConfig) :
    PodResult :=
  match ByValueChecker.new_from_apis apis config with
  | .error e => .err e
  | .ok byvalue_checker =>
      let type_converter : TypeConverter := ⟨[]⟩
      let r1 := convert_apis byvalue_checker type_converter [] apis []
      let extra_apis := (r1.2.1).map add_analysis
      let r2 := convert_apis byvalue_checker r1.2.2 [] extra_apis r1.1
      if r2.2.1.isEmpty then .ok r2.1 else .assertionFailed

deriving instance DecidableEq for Except

/-- Whether a pipeline outcome is the closing `assert!` firing. -/
def PodResult.isAssertionFailed : PodResult → Bool
  | .assertionFailed => true
  | _ => false

/-! ## Spec-side definitions for refinement comparison -/

/-- Following the spec's words: the set of qualified names returned by
converting one field's type (empty when conversion of that type fails). -/
def types_encountered_of (tc : TypeConverter) (ns : List String) (f : Field) :
    Finset QualifiedName :=
  match convert_type tc f.ty ns with
  | .ok (annotated, _) => annotated.types_encountered
  | .error _ => ∅

/-- Following the spec's words: the union, over all of a struct's fields, of
the `types_encountered` sets returned by converting each field's type. -/
def fields_encountered_union (tc : TypeConverter) (ns : List String) :
    List Field → Finset QualifiedName
  | [] => ∅
  | f :: rest => types_encountered_of tc ns f ∪ fields_encountered_union tc ns rest

/-- An API whose struct fields (if any) are all plain named types — the
shape of every declaration the type converter synthesizes, which is what
makes the second classification pass closed. -/
def plainFields : Api Unit → Prop
  | .struct _ item _ => ∀ f ∈ item.fields, ∃ n, f.ty = Ty.named n
  | _ => True

/-! ## Concrete instances used in witnesses and counterexamples -/

/-- A concrete top-level qualified name. -/
def qnA : QualifiedName := ⟨[], "A", false⟩

/-- Another concrete top-level qualified name. -/
def qnB : QualifiedName := ⟨[], "B", false⟩

/-- A concrete generic (template) name. -/
def qnG : QualifiedName := ⟨[], "G", false⟩

/-- A configuration with a finalized empty allowlist and no requests. -/
def cfgEmpty : IncludeCppConfig :=
  ⟨[], .AllFunctionsUnsafe, false, false, [], .Specific [], [], true, none, [], [], []⟩

/-- A configuration whose pod request names a type absent from any batch. -/
def cfgBadRequest : IncludeCppConfig :=
  ⟨[], .AllFunctionsUnsafe, false, false, ["Zed"], .Specific [], [], true, none, [], [], []⟩

/-- A configuration with an unspecified allowlist. -/
def cfgUnspec : IncludeCppConfig :=
  ⟨[], .AllFunctionsUnsafe, false, false, [], .Unspecified [], [], true, none, [], [], []⟩

/-- A configuration with a specific allowlist and a pod request. -/
def cfgSpecific : IncludeCppConfig :=
  ⟨[], .AllFunctionsUnsafe, false, false, ["P"], .Specific ["X"], [], true, none, [], [], []⟩

/-- A concrete struct item with a single plainly-typed field. -/
def itemPlain : ItemStruct := ⟨[], false, [⟨none, .named qnB⟩]⟩

/-- A concrete struct item with an unconvertible field type. -/
def itemBadField : ItemStruct := ⟨[], false, [⟨none, .unsupported⟩]⟩

/-- A checker that holds exactly `qnA` eligible. -/
def bvcOnlyA : ByValueChecker := ⟨[qnA]⟩

/-- A checker that holds no name eligible. -/
def bvcNone : ByValueChecker := ⟨[]⟩

/-- A fresh, empty type converter. -/
def tcEmpty : TypeConverter := ⟨[]⟩

/-! ## Helper lemmas -/

/-- Inversion for a successful `analyze_struct`: attribute stripping
succeeded, the output is a single struct API whose kind follows the
checker's verdict and the nesting flag, the ineligible branches leave the
side state untouched with empty `field_deps`, and the eligible branch's
`field_deps` and side state come from converting the fields. -/
theorem analyze_struct_ok_inv (bvc : ByValueChecker) (tc : TypeConverter)
    (extras : List (Api Unit)) (name : ApiName) (item : ItemStruct)
    (outs : List (Api PodAnalysis)) (ex' : List (Api Unit)) (tc' : TypeConverter)
    (h : analyze_struct bvc tc extras name item = (.ok outs, ex', tc')) :
    ∃ attrs2 d,
      remove_bindgen_attrs item.attrs name.name.get_final_ident = .ok attrs2
      ∧ outs = [Api.struct name ⟨attrs2, item.has_lifecycle, item.fields⟩
          ⟨(if bvc.is_pod name.name then TypeKind.Pod
            else if name.name.is_nested_struct_or_class then TypeKind.NonPodNested
            else TypeKind.NonPod),
           get_bases ⟨attrs2, item.has_lifecycle, item.fields⟩, d⟩]
      ∧ (bvc.is_pod name.name = false → d = ∅ ∧ ex' = extras ∧ tc' = tc)
      ∧ (bvc.is_pod name.name = true →
          convert_fields tc name.name.get_namespace item.fields ∅ extras
            = (.ok d, ex', tc')) := by
  simp only [analyze_struct] at h
  cases hrb : remove_bindgen_attrs item.attrs name.name.get_final_ident with
  | error e => rw [hrb] at h; simp at h
  | ok attrs2 =>
      rw [hrb] at h
      cases hp : bvc.is_pod name.name with
      | false =>
          rw [hp] at h
          simp only [Bool.false_eq_true, if_false] at h
          cases hn : name.name.is_nested_struct_or_class with
          | false =>
              rw [hn] at h
              simp only [Bool.false_eq_true, if_false, Prod.mk.injEq,
                Except.ok.injEq] at h
              obtain ⟨h1, h2, h3⟩ := h
              exact ⟨attrs2, ∅, rfl, by simp [hp, hn, h1.symm],
                fun _ => ⟨rfl, h2.symm, h3.symm⟩, by simp [hp]⟩
          | true =>
              rw [hn] at h
              simp only [if_true, Prod.mk.injEq, Except.ok.injEq] at h
              obtain ⟨h1, h2, h3⟩ := h
              exact ⟨attrs2, ∅, rfl, by simp [hp, hn, h1.symm],
                fun _ => ⟨rfl, h2.symm, h3.symm⟩, by simp [hp]⟩
      | true =>
          rw [hp] at h
          simp only [if_true] at h
          cases hcf : convert_fields tc name.name.get_namespace item.fields ∅ extras with
          | mk r p2 =>
              cases p2 with
              | mk ex2 tc2 =>
                  have hgs : get_struct_field_types tc name.name.get_namespace
                      ⟨attrs2, item.has_lifecycle, item.fields⟩ ∅ extras
                      = (r, ex2, tc2) := hcf
                  rw [hgs] at h
                  cases r with
                  | error e => simp at h
                  | ok d =>
                      simp only [Prod.mk.injEq, Except.ok.injEq] at h
                      obtain ⟨h1, h2, h3⟩ := h
                      refine ⟨attrs2, d, rfl, by simp [hp, h1.symm],
                        by simp [hp], fun _ => ?_⟩
                      rw [h2, h3]


/-- The set of names encountered converting one type does not depend on
the converter's cache state. -/
theorem types_encountered_of_indep (tc tc' : TypeConverter) (ns : List String)
    (f : Field) : types_encountered_of tc ns f = types_encountered_of tc' ns f := by
  cases hf : f.ty with
  | named n => simp only [types_encountered_of, convert_type, hf]
  | unsupported => simp only [types_encountered_of, convert_type, hf]
  | inst g a =>
      simp only [types_encountered_of, convert_type, hf]
      by_cases h1 : instName g a ∈ tc.cache <;>
        by_cases h2 : instName g a ∈ tc'.cache <;>
        simp [h1, h2]

/-- The per-field encountered-name union does not depend on the
converter's cache state. -/
theorem fields_encountered_union_indep (ns : List String) (fields : List Field) :
    ∀ tc tc', fields_encountered_union tc ns fields
      = fields_encountered_union tc' ns fields := by
  induction fields with
  | nil => intro tc tc'; rfl
  | cons f rest ih =>
      intro tc tc'
      simp only [fields_encountered_union]
      rw [types_encountered_of_indep tc tc' ns f, ih tc tc']

/-- When the field-conversion loop succeeds, the accumulated dependency
set is the starting set united with the per-field encountered-name
union. -/
theorem convert_fields_ok_deps (ns : List String) (fields : List Field) :
    ∀ tc deps extras d ex' tc',
      convert_fields tc ns fields deps extras = (.ok d, ex', tc') →
      d = deps ∪ fields_encountered_union tc ns fields := by
  induction fields with
  | nil =>
      intro tc deps extras d ex' tc' h
      simp only [convert_fields, Prod.mk.injEq, Except.ok.injEq] at h
      rw [← h.1, fields_encountered_union, Finset.union_empty]
  | cons f rest ih =>
      intro tc deps extras d ex' tc' h
      simp only [convert_fields] at h
      cases hct : convert_type tc f.ty ns with
      | error e => rw [hct] at h; simp at h
      | ok pair =>
          cases pair with
          | mk annotated tc2 =>
              rw [hct] at h
              have hd := ih tc2 (deps ∪ annotated.types_encountered)
                (extras ++ annotated.extra_apis) d ex' tc' h
              have hte : types_encountered_of tc ns f = annotated.types_encountered := by
                simp only [types_encountered_of, hct]
              rw [hd, fields_encountered_union, hte,
                fields_encountered_union_indep ns rest tc2 tc, Finset.union_assoc]

/-- Inversion for a successful `analyze_enum`: the output is the same
declaration with stripped attributes. -/
theorem analyze_enum_ok_inv (name : ApiName) (item : ItemEnum)
    (outs : List (Api PodAnalysis)) (h : analyze_enum name item = .ok outs) :
    ∃ attrs2, outs = [Api.enum name ⟨attrs2⟩] := by
  simp only [analyze_enum] at h
  cases hrb : remove_bindgen_attrs item.attrs name.name.get_final_ident with
  | error e => rw [hrb] at h; simp at h
  | ok attrs2 =>
      rw [hrb] at h
      injection h with h1
      exact ⟨attrs2, h1.symm⟩

/-- The result accumulator of `convert_apis` is a plain prefix: running
with accumulator `r1 ++ r2` prepends `r1` to the run with accumulator
`r2` and leaves the side state alone. -/
theorem convert_apis_acc (apis : List (Api Unit)) :
    ∀ bvc tc extras r1 r2,
      convert_apis bvc tc extras apis (r1 ++ r2)
        = (r1 ++ (convert_apis bvc tc extras apis r2).1,
           (convert_apis bvc tc extras apis r2).2) := by
  induction apis with
  | nil => intros; rfl
  | cons a rest ih =>
      intro bvc tc extras r1 r2
      cases a with
      | function n =>
          show convert_apis bvc tc extras rest ((r1 ++ r2) ++ [.function n]) = _
          rw [List.append_assoc]
          exact ih bvc tc extras r1 (r2 ++ [.function n])
      | typedef n =>
          show convert_apis bvc tc extras rest ((r1 ++ r2) ++ [.typedef n]) = _
          rw [List.append_assoc]
          exact ih bvc tc extras r1 (r2 ++ [.typedef n])
      | ignored n e =>
          show convert_apis bvc tc extras rest ((r1 ++ r2) ++ [.ignored n e]) = _
          rw [List.append_assoc]
          exact ih bvc tc extras r1 (r2 ++ [.ignored n e])
      | enum n item =>
          cases h : analyze_enum n item with
          | ok outs =>
              simp only [convert_apis, h]
              rw [List.append_assoc]
              exact ih bvc tc extras r1 (r2 ++ outs)
          | error e =>
              simp only [convert_apis, h]
              rw [List.append_assoc]
              exact ih bvc tc extras r1 (r2 ++ [.ignored n e])
      | struct n item u =>
          rcases hz : analyze_struct bvc tc extras n item with ⟨res, ex2, tc2⟩
          cases res with
          | ok outs =>
              simp only [convert_apis, hz]
              rw [List.append_assoc]
              exact ih bvc tc2 ex2 r1 (r2 ++ outs)
          | error e =>
              simp only [convert_apis, hz]
              rw [List.append_assoc]
              exact ih bvc tc2 ex2 r1 (r2 ++ [.ignored n e])

/-- Running `convert_apis` from an empty accumulator produces one output
declaration per input declaration, with the same qualified name in the
same position. -/
theorem convert_apis_names (apis : List (Api Unit)) :
    ∀ bvc tc extras,
      ((convert_apis bvc tc extras apis []).1).map Api.apiName
        = apis.map Api.apiName := by
  induction apis with
  | nil => intros; rfl
  | cons a rest ih =>
      intro bvc tc extras
      cases a with
      | function n =>
          show (convert_apis bvc tc extras rest ([] ++ [Api.function n])).1.map _ = _
          rw [List.nil_append,
            show ([Api.function n] : List (Api PodAnalysis))
              = [Api.function n] ++ [] from (List.append_nil _).symm,
            convert_apis_acc rest bvc tc extras [Api.function n] []]
          simp only [List.map_append, List.map_cons, List.map_nil, ih]
          rfl
      | typedef n =>
          show (convert_apis bvc tc extras rest ([] ++ [Api.typedef n])).1.map _ = _
          rw [List.nil_append,
            show ([Api.typedef n] : List (Api PodAnalysis))
              = [Api.typedef n] ++ [] from (List.append_nil _).symm,
            convert_apis_acc rest bvc tc extras [Api.typedef n] []]
          simp only [List.map_append, List.map_cons, List.map_nil, ih]
          rfl
      | ignored n e =>
          show (convert_apis bvc tc extras rest ([] ++ [Api.ignored n e])).1.map _ = _
          rw [List.nil_append,
            show ([Api.ignored n e] : List (Api PodAnalysis))
              = [Api.ignored n e] ++ [] from (List.append_nil _).symm,
            convert_apis_acc rest bvc tc extras [Api.ignored n e] []]
          simp only [List.map_append, List.map_cons, List.map_nil, ih]
          rfl
      | enum n item =>
          cases h : analyze_enum n item with
          | ok outs =>
              obtain ⟨attrs2, houts⟩ := analyze_enum_ok_inv n item outs h
              simp only [convert_apis, h, houts]
              rw [List.nil_append,
                show ([Api.enum n ⟨attrs2⟩] : List (Api PodAnalysis))
                  = [Api.enum n ⟨attrs2⟩] ++ [] from (List.append_nil _).symm,
                convert_apis_acc rest bvc tc extras [Api.enum n ⟨attrs2⟩] []]
              simp only [List.map_append, List.map_cons, List.map_nil, ih]
              rfl
          | error e =>
              simp only [convert_apis, h]
              rw [List.nil_append,
                show ([Api.ignored n e] : List (Api PodAnalysis))
                  = [Api.ignored n e] ++ [] from (List.append_nil _).symm,
                convert_apis_acc rest bvc tc extras [Api.ignored n e] []]
              simp only [List.map_append, List.map_cons, List.map_nil, ih]
              rfl
      | struct n item u =>
          rcases hz : analyze_struct bvc tc extras n item with ⟨res, ex2, tc2⟩
          cases res with
          | ok outs =>
              obtain ⟨attrs2, d, _, houts, _, _⟩ :=
                analyze_struct_ok_inv bvc tc extras n item outs ex2 tc2 hz
              simp only [convert_apis, hz, houts]
              rw [List.nil_append,
                show ([Api.struct n ⟨attrs2, item.has_lifecycle, item.fields⟩
                    ⟨(if bvc.is_pod n.name then TypeKind.Pod
                      else if n.name.is_nested_struct_or_class then TypeKind.NonPodNested
                      else TypeKind.NonPod),
                     get_bases ⟨attrs2, item.has_lifecycle, item.fields⟩, d⟩]
                      : List (Api PodAnalysis))
                  = _ ++ [] from (List.append_nil _).symm,
                convert_apis_acc rest bvc tc2 ex2 _ []]
              simp only [List.map_append, List.map_cons, List.map_nil, ih]
              rfl
          | error e =>
              simp only [convert_apis, hz]
              rw [List.nil_append,
                show ([Api.ignored n e] : List (Api PodAnalysis))
                  = [Api.ignored n e] ++ [] from (List.append_nil _).symm,
                convert_apis_acc rest bvc tc2 ex2 [Api.ignored n e] []]
              simp only [List.map_append, List.map_cons, List.map_nil, ih]
              rfl

/-- Every declaration the type converter synthesizes has plain named
field types. -/
theorem convert_type_extras_plain (tc : TypeConverter) (t : Ty) (ns : List String)
    (ann : Annotated) (tc' : TypeConverter)
    (h : convert_type tc t ns = .ok (ann, tc')) :
    ∀ a ∈ ann.extra_apis, plainFields a := by
  cases t with
  | named n =>
      simp only [convert_type, Except.ok.injEq, Prod.mk.injEq] at h
      intro a ha
      rw [← h.1] at ha
      simp at ha
  | unsupported => simp [convert_type] at h
  | inst g b =>
      simp only [convert_type] at h
      by_cases hc : instName g b ∈ tc.cache
      · rw [if_pos hc] at h
        simp only [Except.ok.injEq, Prod.mk.injEq] at h
        intro a ha
        rw [← h.1] at ha
        simp at ha
      · rw [if_neg hc] at h
        simp only [Except.ok.injEq, Prod.mk.injEq] at h
        intro a ha
        rw [← h.1] at ha
        simp only [List.mem_singleton] at ha
        rw [ha]
        intro f hf
        simp only [concreteInstApi, List.mem_singleton] at hf
        rw [hf]
        exact ⟨b, rfl⟩

/-- Every declaration on the extra-API list after the field-conversion
loop was either already there or has plain named field types. -/
theorem convert_fields_extras_plain (ns : List String) (fields : List Field) :
    ∀ tc deps extras,
      ∀ a ∈ (convert_fields tc ns fields deps extras).2.1,
        a ∈ extras ∨ plainFields a := by
  induction fields with
  | nil => intro tc deps extras a ha; exact Or.inl ha
  | cons f rest ih =>
      intro tc deps extras a ha
      simp only [convert_fields] at ha
      cases hct : convert_type tc f.ty ns with
      | error e => rw [hct] at ha; exact Or.inl ha
      | ok pair =>
          cases pair with
          | mk annotated tc2 =>
              rw [hct] at ha
              rcases ih tc2 (deps ∪ annotated.types_encountered)
                  (extras ++ annotated.extra_apis) a ha with hmem | hpl
              · rcases List.mem_append.mp hmem with hl | hr
                · exact Or.inl hl
                · exact Or.inr (convert_type_extras_plain tc f.ty ns annotated tc2 hct a hr)
              · exact Or.inr hpl

/-- Every declaration on the extra-API list after `analyze_struct` was
either already there or has plain named field types. -/
theorem analyze_struct_extras_plain (bvc : ByValueChecker) (tc : TypeConverter)
    (extras : List (Api Unit)) (name : ApiName) (item : ItemStruct) :
    ∀ a ∈ (analyze_struct bvc tc extras name item).2.1,
      a ∈ extras ∨ plainFields a := by
  intro a ha
  simp only [analyze_struct] at ha
  cases hrb : remove_bindgen_attrs item.attrs name.name.get_final_ident with
  | error e => rw [hrb] at ha; exact Or.inl ha
  | ok attrs2 =>
      rw [hrb] at ha
      cases hp : bvc.is_pod name.name with
      | false =>
          rw [hp] at ha
          simp only [Bool.false_eq_true, if_false] at ha
          cases hn : name.name.is_nested_struct_or_class with
          | true => rw [hn] at ha; simp only [if_true] at ha; exact Or.inl ha
          | false =>
              rw [hn] at ha
              simp only [Bool.false_eq_true, if_false] at ha
              exact Or.inl ha
      | true =>
          rw [hp] at ha
          simp only [if_true] at ha
          rcases hcf : convert_fields tc name.name.get_namespace item.fields ∅ extras
            with ⟨res, ex2, tc2⟩
          have hgs : get_struct_field_types tc name.name.get_namespace
              ⟨attrs2, item.has_lifecycle, item.fields⟩ ∅ extras = (res, ex2, tc2) := hcf
          rw [hgs] at ha
          have hmem : a ∈ ex2 := by
            cases res with
            | error e => exact ha
            | ok d => exact ha
          have := convert_fields_extras_plain name.name.get_namespace item.fields
            tc ∅ extras a (by rw [hcf]; exact hmem)
          exact this

/-- Every declaration on the extra-API side list after a `convert_apis`
pass was either on it already or has plain named field types. -/
theorem convert_apis_extras_plain (apis : List (Api Unit)) :
    ∀ bvc tc extras results,
      ∀ a ∈ (convert_apis bvc tc extras apis results).2.1,
        a ∈ extras ∨ plainFields a := by
  induction apis with
  | nil => intro bvc tc extras results a ha; exact Or.inl ha
  | cons x rest ih =>
      intro bvc tc extras results a ha
      cases x with
      | function n => exact ih bvc tc extras _ a ha
      | typedef n => exact ih bvc tc extras _ a ha
      | ignored n e => exact ih bvc tc extras _ a ha
      | enum n item =>
          simp only [convert_apis] at ha
          cases h : analyze_enum n item with
          | ok outs => rw [h] at ha; exact ih bvc tc extras _ a ha
          | error e => rw [h] at ha; exact ih bvc tc extras _ a ha
      | struct n item u =>
          simp only [convert_apis] at ha
          rcases hz : analyze_struct bvc tc extras n item with ⟨res, ex2, tc2⟩
          rw [hz] at ha
          have hstep : ∀ b ∈ ex2, b ∈ extras ∨ plainFields b := by
            intro b hb
            exact analyze_struct_extras_plain bvc tc extras n item b (by rw [hz]; exact hb)
          cases res with
          | ok outs =>
              rcases ih bvc tc2 ex2 _ a ha with hmem | hpl
              · exact hstep a hmem
              · exact Or.inr hpl
          | error e =>
              rcases ih bvc tc2 ex2 _ a ha with hmem | hpl
              · exact hstep a hmem
              · exact Or.inr hpl

/-- Converting the fields of a struct whose field types are all plain
named types synthesizes no extra declarations. -/
theorem convert_fields_plain_no_extras (ns : List String) (fields : List Field)
    (hplain : ∀ f ∈ fields, ∃ n, f.ty = Ty.named n) :
    ∀ tc deps extras, (convert_fields tc ns fields deps extras).2.1 = extras := by
  induction fields with
  | nil => intro tc deps extras; rfl
  | cons f rest ih =>
      intro tc deps extras
      obtain ⟨n, hf⟩ := hplain f (List.mem_cons_self f rest)
      simp only [convert_fields, hf, convert_type, List.append_nil]
      exact ih (fun g hg => hplain g (List.mem_cons_of_mem f hg)) tc _ extras

/-- Analysing a declaration with plain named field types adds nothing to
the extra-API side list. -/
theorem analyze_struct_plain_no_extras (bvc : ByValueChecker) (tc : TypeConverter)
    (extras : List (Api Unit)) (name : ApiName) (item : ItemStruct)
    (hplain : ∀ f ∈ item.fields, ∃ n, f.ty = Ty.named n) :
    (analyze_struct bvc tc extras name item).2.1 = extras := by
  simp only [analyze_struct]
  cases hrb : remove_bindgen_attrs item.attrs name.name.get_final_ident with
  | error e => rfl
  | ok attrs2 =>
      cases hp : bvc.is_pod name.name with
      | false =>
          simp only [Bool.false_eq_true, if_false]
          cases hn : name.name.is_nested_struct_or_class with
          | true => simp only [if_true]
          | false => simp only [Bool.false_eq_true, if_false]
      | true =>
          simp only [if_true]
          rcases hcf : convert_fields tc name.name.get_namespace item.fields ∅ extras
            with ⟨res, ex2, tc2⟩
          have hex2 : ex2 = extras := by
            have := convert_fields_plain_no_extras name.name.get_namespace
              item.fields hplain tc ∅ extras
            rw [hcf] at this
            exact this
          have hgs : get_struct_field_types tc name.name.get_namespace
              ⟨attrs2, item.has_lifecycle, item.fields⟩ ∅ extras = (res, ex2, tc2) := hcf
          rw [hgs]
          cases res with
          | error e => exact hex2
          | ok d => exact hex2

/-- A pass over a batch whose declarations all have plain named field
types leaves the extra-API side list unchanged. -/
theorem convert_apis_plain_no_extras (apis : List (Api Unit))
    (hplain : ∀ x ∈ apis, plainFields x) :
    ∀ bvc tc extras results,
      (convert_apis bvc tc extras apis results).2.1 = extras := by
  induction apis with
  | nil => intro bvc tc extras results; rfl
  | cons x rest ih =>
      have hrest : ∀ y ∈ rest, plainFields y :=
        fun y hy => hplain y (List.mem_cons_of_mem x hy)
      intro bvc tc extras results
      cases x with
      | function n => exact ih hrest bvc tc extras _
      | typedef n => exact ih hrest bvc tc extras _
      | ignored n e => exact ih hrest bvc tc extras _
      | enum n item =>
          simp only [convert_apis]
          cases h : analyze_enum n item with
          | ok outs => exact ih hrest bvc tc extras _
          | error e => exact ih hrest bvc tc extras _
      | struct n item u =>
          simp only [convert_apis]
          rcases hz : analyze_struct bvc tc extras n item with ⟨res, ex2, tc2⟩
          have hx : plainFields (Api.struct n item u) := hplain _ (List.mem_cons_self _ rest)
          have hex2 : ex2 = extras := by
            have := analyze_struct_plain_no_extras bvc tc extras n item hx
            rw [hz] at this
            exact this
          cases res with
          | ok outs => rw [ih hrest bvc tc2 ex2 _, hex2]
          | error e => rw [ih hrest bvc tc2 ex2 _, hex2]

/-! ## Claim theorems -/

/-- C6: the explicit allowlist and the generate-all directive are mutually
exclusive, enforced at directive-parse time: pushing a specific name onto
an allowlist already set to `All` returns a parse error, and setting `All`
on an allowlist already holding specific names returns a parse error; in
both cases the allowlist is left unchanged. -/
theorem allowlist_all_specific_mutually_exclusive (item : String) (l : List String) :
    (Allowlist.All.push item).1 = Allowlist.All
      ∧ (Allowlist.All.push item).2.isSome = true
      ∧ ((Allowlist.Specific l).set_all).1 = Allowlist.Specific l
      ∧ ((Allowlist.Specific l).set_all).2.isSome = true :=
  ⟨rfl, rfl, rfl, rfl⟩

/-- C7: after `confirm_complete` returns `Ok`, the allowlist is never
`Unspecified`: an `Unspecified` allowlist is replaced by an empty
`Specific` list when auto-allowlisting is permitted; an error is returned
when the caller required an explicit choice; an allowlist already `All` or
`Specific` leaves the configuration unchanged. -/
theorem confirm_complete_allowlist_finalized (c : IncludeCppConfig)
    (auto_allowlist : Bool) :
    (∀ c', c.confirm_complete auto_allowlist = .ok c' →
        ∀ l, c'.allowlist ≠ Allowlist.Unspecified l)
      ∧ (∀ l, c.allowlist = Allowlist.Unspecified l →
          (auto_allowlist = true →
            ∃ c', c.confirm_complete auto_allowlist = .ok c'
              ∧ c'.allowlist = Allowlist.Specific [])
          ∧ (auto_allowlist = false →
              ∃ e, c.confirm_complete auto_allowlist = .error e))
      ∧ ((∀ l, c.allowlist ≠ Allowlist.Unspecified l) →
          c.confirm_complete auto_allowlist = .ok c) := by
  obtain ⟨incl, up, po, ei, pr, al, bl, eu, mn, rt, sc, er⟩ := c
  refine ⟨?_, ?_, ?_⟩
  · intro c' hok l
    cases al with
    | Unspecified u =>
        cases auto_allowlist with
        | true =>
            simp only [IncludeCppConfig.confirm_complete] at hok
            cases hok
            simp
        | false => simp [IncludeCppConfig.confirm_complete] at hok
    | All =>
        simp only [IncludeCppConfig.confirm_complete] at hok
        cases hok
        simp
    | Specific s =>
        simp only [IncludeCppConfig.confirm_complete] at hok
        cases hok
        simp
  · intro l hl
    cases al with
    | Unspecified u =>
        constructor
        · intro ha
          subst ha
          exact ⟨_, rfl, rfl⟩
        · intro ha
          subst ha
          exact ⟨_, rfl⟩
    | All => cases hl
    | Specific s => cases hl
  · intro hne
    cases al with
    | Unspecified u => exact absurd rfl (hne u)
    | All => rfl
    | Specific s => rfl

/-- Witness for C7 at a concrete configuration: an unspecified allowlist is
finalized to an empty specific list under auto-allowlisting, and rejected
otherwise. -/
theorem confirm_complete_allowlist_finalized_witness :
    (∃ c', cfgUnspec.confirm_complete true = .ok c'
        ∧ c'.allowlist = Allowlist.Specific [])
      ∧ (∃ e, cfgUnspec.confirm_complete false = .error e) :=
  ⟨((confirm_complete_allowlist_finalized cfgUnspec true).2.1 [] rfl).1 rfl,
   ((confirm_complete_allowlist_finalized cfgUnspec false).2.1 [] rfl).2 rfl⟩

/-- C10: in a configuration whose allowlist is finalized (`All` or
`Specific`), every name on the pod-requests list is reported on the
allowlist by `is_on_allowlist`, even if it was never pushed via a
generate directive. -/
theorem pod_requests_always_on_allowlist (c : IncludeCppConfig) (r : String)
    (hfin : c.allowlist = Allowlist.All
      ∨ ∃ items, c.allowlist = Allowlist.Specific items)
    (hr : r ∈ c.pod_requests) :
    c.is_on_allowlist r = some true := by
  rcases hfin with h | ⟨items, h⟩
  · simp [IncludeCppConfig.is_on_allowlist, IncludeCppConfig.bindgen_allowlist, h]
  · simp only [IncludeCppConfig.is_on_allowlist, IncludeCppConfig.bindgen_allowlist, h]
    have hmem : r ∈ items ++ c.pod_requests ++ c.active_utilities
        ++ (c.subclasses.map subclassNames).flatten := by
      simp only [List.mem_append]
      exact Or.inl (Or.inl (Or.inr hr))
    have hc := List.elem_eq_true_of_mem hmem
    simp only [List.contains, hc, Bool.true_or]

/-- Witness for C10 at a concrete configuration with a specific allowlist
and a pod request not on the generate list. -/
theorem pod_requests_always_on_allowlist_witness :
    cfgSpecific.is_on_allowlist "P" = some true :=
  pod_requests_always_on_allowlist cfgSpecific "P" (Or.inr ⟨["X"], rfl⟩)
    (by simp [cfgSpecific])

/-- C2: when an explicit by-value request names a type the checker
determines ineligible, checker construction fails with a configuration
error, `analyze_pod_apis` surfaces exactly that error, and no classified
declaration set is produced. -/
theorem bad_pod_request_aborts_run (apis : List (Api Unit))
    (config : IncludeCppConfig) (r : String)
    (hr : r ∈ config.pod_requests)
    (hbad : QualifiedName.from_cpp_name r ∉ pod_eligible apis) :
    (∃ n, ByValueChecker.new_from_apis apis config
          = .error (.unsatisfiablePodRequest n)
        ∧ analyze_pod_apis apis config = .err (.unsatisfiablePodRequest n))
      ∧ ∀ results, analyze_pod_apis apis config ≠ .ok results := by
  have hp : (!(decide (QualifiedName.from_cpp_name r ∈ pod_eligible apis))) = true := by
    simp [hbad]
  cases hfind : config.get_pod_requests.find?
      (fun s => !(decide (QualifiedName.from_cpp_name s ∈ pod_eligible apis))) with
  | none =>
      exfalso
      have := List.find?_eq_none.mp hfind r hr
      rw [hp] at this
      exact this rfl
  | some x =>
      have herr : ByValueChecker.new_from_apis apis config
          = .error (.unsatisfiablePodRequest (QualifiedName.from_cpp_name x)) := by
        simp only [ByValueChecker.new_from_apis, hfind]
      have hrun : analyze_pod_apis apis config
          = .err (.unsatisfiablePodRequest (QualifiedName.from_cpp_name x)) := by
        simp only [analyze_pod_apis, herr]
      exact ⟨⟨_, herr, hrun⟩, fun results h => by rw [hrun] at h; cases h⟩

/-- Witness for C2: an empty batch with a pod request naming an unknown
type is rejected before any classification. -/
theorem bad_pod_request_aborts_run_witness :
    (∃ n, ByValueChecker.new_from_apis [] cfgBadRequest
          = .error (.unsatisfiablePodRequest n)
        ∧ analyze_pod_apis [] cfgBadRequest = .err (.unsatisfiablePodRequest n))
      ∧ ∀ results, analyze_pod_apis [] cfgBadRequest ≠ .ok results :=
  bad_pod_request_aborts_run [] cfgBadRequest "Zed" (by simp [cfgBadRequest])
    (by decide)

/-- C3 (counterexample): the unrestricted claim fails — a struct the
checker reports ineligible is classified with empty `field_deps`, while
the union of the `types_encountered` sets of converting its field types is
nonempty. -/
theorem field_deps_union_counterexample :
    (analyze_struct bvcNone tcEmpty [] ⟨qnA⟩ itemPlain).1
        = .ok [Api.struct ⟨qnA⟩ itemPlain ⟨.NonPod, ∅, ∅⟩]
      ∧ fields_encountered_union tcEmpty qnA.get_namespace itemPlain.fields = {qnB}
      ∧ (∅ : Finset QualifiedName) ≠ {qnB} :=
  ⟨by decide, by decide, by decide⟩

/-- C3 (amended): for every struct the pipeline classifies `Pod`, the
attached `field_deps` equals exactly the union, over the struct's fields,
of the `types_encountered` sets returned by converting each field's type;
for a struct classified ineligible the converter is not consulted and
`field_deps` is empty. -/
theorem pod_field_deps_exact_union (bvc : ByValueChecker) (tc : TypeConverter)
    (extras : List (Api Unit)) (name : ApiName) (item : ItemStruct)
    (outs : List (Api PodAnalysis)) (ex' : List (Api Unit)) (tc' : TypeConverter)
    (item2 : ItemStruct) (a : PodAnalysis)
    (h : analyze_struct bvc tc extras name item = (.ok outs, ex', tc'))
    (hout : outs = [Api.struct name item2 a]) :
    (a.kind = TypeKind.Pod →
        a.field_deps = fields_encountered_union tc name.name.get_namespace item.fields)
      ∧ (a.kind ≠ TypeKind.Pod → a.field_deps = ∅) := by
  obtain ⟨attrs2, d, hstrip, houts, hfalse, htrue⟩ :=
    analyze_struct_ok_inv bvc tc extras name item outs ex' tc' h
  rw [hout] at houts
  have ha : a = ⟨(if bvc.is_pod name.name then TypeKind.Pod
      else if name.name.is_nested_struct_or_class then TypeKind.NonPodNested
      else TypeKind.NonPod),
    get_bases ⟨attrs2, item.has_lifecycle, item.fields⟩, d⟩ := by
    injection houts with h1 _
    injection h1
  cases hp : bvc.is_pod name.name with
  | true =>
      have hcf := htrue hp
      have hd := convert_fields_ok_deps name.name.get_namespace item.fields
        tc ∅ extras d ex' tc' hcf
      rw [Finset.empty_union] at hd
      constructor
      · intro _
        rw [ha]
        exact hd
      · intro hk
        exfalso
        apply hk
        rw [ha]
        simp [hp]
  | false =>
      obtain ⟨hd, _, _⟩ := hfalse hp
      constructor
      · intro hk
        rw [ha] at hk
        simp only [hp, Bool.false_eq_true, if_false] at hk
        cases hn : name.name.is_nested_struct_or_class <;> rw [hn] at hk <;> simp at hk
      · intro _
        rw [ha, hd]

/-- Witness for the amended C3 at a concrete eligible struct: the attached
`field_deps` coincides with the per-field encountered-name union. -/
theorem pod_field_deps_exact_union_witness :
    (⟨TypeKind.Pod, ∅, {qnB}⟩ : PodAnalysis).field_deps
      = fields_encountered_union tcEmpty qnA.get_namespace itemPlain.fields :=
  (pod_field_deps_exact_union bvcOnlyA tcEmpty [] ⟨qnA⟩ itemPlain
    [Api.struct ⟨qnA⟩ itemPlain ⟨.Pod, ∅, {qnB}⟩] [] tcEmpty itemPlain
    ⟨.Pod, ∅, {qnB}⟩ (by decide) rfl).1 rfl

/-- C4: a struct is classified `Pod` exactly when the by-value checker
reports its qualified name eligible; an ineligible struct is classified
`NonPodNested` when its name denotes a nested type and `NonPod` otherwise
— never `Pod`. -/
theorem classification_follows_checker (bvc : ByValueChecker) (tc : TypeConverter)
    (extras : List (Api Unit)) (name : ApiName) (item : ItemStruct)
    (outs : List (Api PodAnalysis)) (ex' : List (Api Unit)) (tc' : TypeConverter)
    (h : analyze_struct bvc tc extras name item = (.ok outs, ex', tc')) :
    ∃ item2 a, outs = [Api.struct name item2 a]
      ∧ (a.kind = TypeKind.Pod ↔ bvc.is_pod name.name = true)
      ∧ (bvc.is_pod name.name = false →
          a.kind = if name.name.is_nested_struct_or_class then TypeKind.NonPodNested
            else TypeKind.NonPod) := by
  obtain ⟨attrs2, d, hstrip, houts, hfalse, htrue⟩ :=
    analyze_struct_ok_inv bvc tc extras name item outs ex' tc' h
  refine ⟨⟨attrs2, item.has_lifecycle, item.fields⟩, _, houts, ?_, ?_⟩
  · cases hp : bvc.is_pod name.name with
    | true => simp [hp]
    | false =>
        simp only [hp, Bool.false_eq_true, if_false]
        constructor
        · intro hk
          cases hn : name.name.is_nested_struct_or_class <;> rw [hn] at hk <;> simp at hk
        · intro hk
          cases hk
  · intro hp
    simp [hp]

/-- Witness for C4 at concrete structs: an eligible struct is classified
`Pod`; the same struct under a checker holding nothing eligible exists in
the output as a non-Pod classification. -/
theorem classification_follows_checker_witness :
    ∃ item2 a, [Api.struct (⟨qnA⟩ : ApiName) itemPlain
        (⟨.Pod, ∅, {qnB}⟩ : PodAnalysis)] = [Api.struct ⟨qnA⟩ item2 a]
      ∧ (a.kind = TypeKind.Pod ↔ bvcOnlyA.is_pod qnA = true)
      ∧ (bvcOnlyA.is_pod qnA = false →
          a.kind = if qnA.is_nested_struct_or_class then TypeKind.NonPodNested
            else TypeKind.NonPod) :=
  classification_follows_checker bvcOnlyA tcEmpty [] ⟨qnA⟩ itemPlain
    [Api.struct ⟨qnA⟩ itemPlain ⟨.Pod, ∅, {qnB}⟩] [] tcEmpty (by decide)

/-- C9: for a struct the checker reports ineligible, `analyze_struct`
never consults the type converter: the extra-API side list and the
converter state pass through untouched, a successful classification
carries empty `field_deps`, and the only possible failure is attribute
stripping. -/
theorem nonpod_struct_skips_converter (bvc : ByValueChecker) (tc : TypeConverter)
    (extras : List (Api Unit)) (name : ApiName) (item : ItemStruct)
    (hnp : bvc.is_pod name.name = false) :
    (analyze_struct bvc tc extras name item).2.1 = extras
      ∧ (analyze_struct bvc tc extras name item).2.2 = tc
      ∧ (∀ outs ex' tc',
          analyze_struct bvc tc extras name item = (.ok outs, ex', tc') →
          ∃ item2 kind bases, outs = [Api.struct name item2 ⟨kind, bases, ∅⟩])
      ∧ (∀ e ex' tc',
          analyze_struct bvc tc extras name item = (.error e, ex', tc') →
          remove_bindgen_attrs item.attrs name.name.get_final_ident = .error e) := by
  simp only [analyze_struct, hnp]
  cases hrb : remove_bindgen_attrs item.attrs name.name.get_final_ident with
  | error e =>
      refine ⟨rfl, rfl, ?_, ?_⟩
      · intro outs ex' tc' hok
        simp at hok
      · intro e' ex' tc' herr
        simp only [Prod.mk.injEq, Except.error.injEq] at herr
        rw [herr.1]
  | ok attrs2 =>
      simp only [Bool.false_eq_true, if_false]
      cases hn : name.name.is_nested_struct_or_class with
      | true =>
          simp only [if_true]
          refine ⟨trivial, trivial, ?_, ?_⟩
          · intro outs ex' tc' hok
            simp only [Prod.mk.injEq, Except.ok.injEq] at hok
            exact ⟨_, _, _, hok.1.symm⟩
          · intro e' ex' tc' herr
            simp at herr
      | false =>
          simp only [Bool.false_eq_true, if_false]
          refine ⟨trivial, trivial, ?_, ?_⟩
          · intro outs ex' tc' hok
            simp only [Prod.mk.injEq, Except.ok.injEq] at hok
            exact ⟨_, _, _, hok.1.symm⟩
          · intro e' ex' tc' herr
            simp at herr

/-- Witness for C9 at a concrete ineligible struct whose field type would
synthesize an extra declaration if it were converted: the side list and
converter state are untouched and `field_deps` is empty. -/
theorem nonpod_struct_skips_converter_witness :
    (analyze_struct bvcNone tcEmpty [] ⟨qnA⟩
        ⟨[], false, [⟨none, .inst qnG qnB⟩]⟩).2.1 = []
      ∧ (analyze_struct bvcNone tcEmpty [] ⟨qnA⟩
          ⟨[], false, [⟨none, .inst qnG qnB⟩]⟩).2.2 = tcEmpty
      ∧ (∀ outs ex' tc',
          analyze_struct bvcNone tcEmpty [] ⟨qnA⟩
              ⟨[], false, [⟨none, .inst qnG qnB⟩]⟩ = (.ok outs, ex', tc') →
          ∃ item2 kind bases, outs = [Api.struct ⟨qnA⟩ item2 ⟨kind, bases, ∅⟩])
      ∧ (∀ e ex' tc',
          analyze_struct bvcNone tcEmpty [] ⟨qnA⟩
              ⟨[], false, [⟨none, .inst qnG qnB⟩]⟩ = (.error e, ex', tc') →
          remove_bindgen_attrs ([] : List String) qnA.get_final_ident = .error e) :=
  nonpod_struct_skips_converter bvcNone tcEmpty [] ⟨qnA⟩
    ⟨[], false, [⟨none, .inst qnG qnB⟩]⟩ (by decide)

/-- C5: per-item fault isolation — a field-conversion failure is reported
as an error tagged with that declaration's final identifier, the failing
declaration becomes a single ignored entry, and every other declaration in
the batch still yields its classified output (one output per input, names
preserved positionally). -/
theorem conversion_failure_isolated :
    (∀ (bvc : ByValueChecker) (tc : TypeConverter) (extras : List (Api Unit))
        (apis : List (Api Unit)) (results : List (Api PodAnalysis)),
      ∃ out, convert_apis bvc tc extras apis results
          = (results ++ out, (convert_apis bvc tc extras apis []).2)
        ∧ out.map Api.apiName = apis.map Api.apiName)
      ∧ (∀ (bvc : ByValueChecker) (tc : TypeConverter) (extras : List (Api Unit))
          (name : ApiName) (item : ItemStruct) (attrs2 : List String)
          (e : ConvertError) (ex2 : List (Api Unit)) (tc2 : TypeConverter),
        remove_bindgen_attrs item.attrs name.name.get_final_ident = .ok attrs2 →
        bvc.is_pod name.name = true →
        get_struct_field_types tc name.name.get_namespace
            ⟨attrs2, item.has_lifecycle, item.fields⟩ ∅ extras = (.error e, ex2, tc2) →
        analyze_struct bvc tc extras name item
          = (.error ⟨e, some (.item name.name.get_final_ident)⟩, ex2, tc2))
      ∧ (∀ (bvc : ByValueChecker) (tc : TypeConverter) (extras : List (Api Unit))
          (n : ApiName) (item : ItemStruct) (e : ConvertErrorWithContext)
          (ex2 : List (Api Unit)) (tc2 : TypeConverter) (rest : List (Api Unit))
          (results : List (Api PodAnalysis)),
        analyze_struct bvc tc extras n item = (.error e, ex2, tc2) →
        convert_apis bvc tc extras (.struct n item () :: rest) results
          = convert_apis bvc tc2 ex2 rest (results ++ [.ignored n e])) := by
  refine ⟨?_, ?_, ?_⟩
  · intro bvc tc extras apis results
    refine ⟨(convert_apis bvc tc extras apis []).1, ?_,
      convert_apis_names apis bvc tc extras⟩
    have h := convert_apis_acc apis bvc tc extras results []
    rw [List.append_nil] at h
    exact h
  · intro bvc tc extras name item attrs2 e ex2 tc2 hstrip hpod hgft
    simp only [analyze_struct, hstrip, hpod, if_true, hgft]
  · intro bvc tc extras n item e ex2 tc2 rest results hz
    simp only [convert_apis, hz]

/-- Witness for C5: a batch holding a failing struct (unconvertible field
type) followed by a plain enum yields the ignored entry for the struct —
tagged with its identifier — and still classifies the enum. -/
theorem conversion_failure_isolated_witness :
    analyze_struct bvcOnlyA tcEmpty [] ⟨qnA⟩ itemBadField
        = (.error ⟨.unsupportedType, some (.item "A")⟩, [], tcEmpty)
      ∧ convert_apis bvcOnlyA tcEmpty []
          [.struct ⟨qnA⟩ itemBadField (), .enum ⟨qnB⟩ ⟨[]⟩] []
        = ([.ignored ⟨qnA⟩ ⟨.unsupportedType, some (.item "A")⟩,
            .enum ⟨qnB⟩ ⟨[]⟩], [], tcEmpty) := by
  constructor
  · exact (conversion_failure_isolated.2.1) bvcOnlyA tcEmpty [] ⟨qnA⟩ itemBadField
      [] .unsupportedType [] tcEmpty (by decide) (by decide) (by decide)
  · rw [(conversion_failure_isolated.2.2) bvcOnlyA tcEmpty [] ⟨qnA⟩ itemBadField
      ⟨.unsupportedType, some (.item "A")⟩ [] tcEmpty [.enum ⟨qnB⟩ ⟨[]⟩] []
      ((conversion_failure_isolated.2.1) bvcOnlyA tcEmpty [] ⟨qnA⟩ itemBadField
        [] .unsupportedType [] tcEmpty (by decide) (by decide) (by decide))]
    decide

/-- C8: the pipeline is deterministic — rerunning `analyze_pod_apis` on
equal input batches and configurations yields identical outputs (in this
embedding the set-valued results are `Finset`s, so the statement is
insensitive to any set iteration order). -/
theorem analyze_pod_apis_deterministic (apis apis' : List (Api Unit))
    (config config' : IncludeCppConfig) (ha : apis = apis')
    (hc : config = config') :
    analyze_pod_apis apis config = analyze_pod_apis apis' config' := by
  rw [ha, hc]

/-- Witness for C8 at a concrete batch and configuration. -/
theorem analyze_pod_apis_deterministic_witness :
    analyze_pod_apis [Api.struct ⟨qnA⟩ itemPlain ()] cfgEmpty
      = analyze_pod_apis [Api.struct ⟨qnA⟩ itemPlain ()] cfgEmpty :=
  analyze_pod_apis_deterministic [Api.struct ⟨qnA⟩ itemPlain ()]
    [Api.struct ⟨qnA⟩ itemPlain ()] cfgEmpty cfgEmpty rfl rfl

/-- C1: for every input declaration batch and configuration accepted by
the checker, re-running the classifiers over the declarations discovered
during the first pass discovers nothing further: the second-pass side list
is empty and the pipeline's closing assertion never fires. -/
theorem second_pass_discovers_nothing (apis : List (Api Unit))
    (config : IncludeCppConfig) :
    (analyze_pod_apis apis config).isAssertionFailed = false := by
  simp only [analyze_pod_apis]
  cases hb : ByValueChecker.new_from_apis apis config with
  | error e => rfl
  | ok bvc =>
      rcases hr1 : convert_apis bvc ⟨[]⟩ [] apis [] with ⟨res1, ex1, tc1⟩
      have hmap : ∀ l : List (Api Unit), l.map add_analysis = l := by
        intro l
        induction l with
        | nil => rfl
        | cons b t iht => simp only [List.map_cons, iht]; rfl
      have hplain : ∀ a ∈ ex1.map add_analysis, plainFields a := by
        intro a ha
        rw [hmap ex1] at ha
        rcases convert_apis_extras_plain apis bvc ⟨[]⟩ [] [] a
            (by rw [hr1]; exact ha) with hmem | hpl
        · simp at hmem
        · exact hpl
      have h2 : (convert_apis bvc tc1 [] (ex1.map add_analysis) res1).2.1 = [] :=
        convert_apis_plain_no_extras (ex1.map add_analysis) hplain bvc tc1 [] res1
      simp only [hr1, h2, List.isEmpty_nil, if_true]
      rfl

end Autocxx
